import Mathlib

/-!
Verification of the OS1 decoder pipeline (`src/ouster_ros/src/os1_decoder.cpp`):
the sweep accumulator (`Decoder::LidarPacketCb`), the configuration callback
(`Decoder::ConfigCb`), the image builder (the decode loop inside
`Decoder::LidarPacketCb`) and the projector (`ToCloud`).

Numeric conventions of the embedding: C++ `float`/`double` quantities (angles,
scaled ranges, point coordinates) are modelled as real numbers; the dynamic
reconfiguration range bounds as rationals; raw sensor words (`uint32_t` range,
`uint16_t` reflectivity, validity word) as naturals.  The `quiet_NaN` sentinel
that marks an unwritten image cell is modelled by `Option`: `none` is the
sentinel, `some` a written `[range, reflectivity, azimuth]` triple.  The NaN
placeholder point emitted in organized mode is the distinguished constructor
`CloudPoint.nanPoint`.
-/

namespace OusterOS1

/-- Modelled from the spec: the geometry constants `columns_per_buffer` and
`pixels_per_column` come from `ouster/os1_packet.h`, which is not part of this
source snapshot.  The spec (§8) fixes `columns_per_buffer = 16`, and the default
`MODE_1024x10` sensor has 64 beams per column. -/
def columns_per_buffer : Nat := 16

/-- Modelled from the spec: number of beams (image rows); see
`columns_per_buffer`. -/
def pixels_per_column : Nat := 64

/-- `static constexpr float range_factor = 0.001f;` — raw range units to
meters. -/
noncomputable def range_factor : ℝ := 1 / 1000

/-- Modelled from the spec: one beam sample inside a column, as extracted by the
pixel accessors `px_range` / `px_reflectivity` of `ouster/os1_util.h` (not in
this snapshot): a raw `uint32` range and a raw reflectivity word. -/
structure Pixel where
  range : Nat
  reflectivity : Nat

/-- Modelled from the spec: one azimuth column of a packet, as extracted by the
column accessors of `ouster/os1_util.h` (not in this snapshot):
`col_measurement_id`, `col_frame_id`, the raw validity word read by
`col_valid`, the horizontal angle in radians read by `col_h_angle`, and the
per-beam pixels reached through `nth_px`. -/
structure Column where
  measurement_id : Nat
  frame_id : Nat
  valid : Nat
  h_angle : ℝ
  px : Nat → Pixel

/-- Modelled from the spec: a raw lidar packet (`ouster_ros::PacketMsg`) is its
byte-buffer length together with the typed per-column fields that the fixed
layout offsets of `ouster/os1_util.h` (not in this snapshot) address inside
it. -/
structure PacketMsg where
  len : Nat
  col : Nat → Column

/-- Modelled from the spec (§4.1, §7): failure taxonomy of the layout
accessors. -/
inductive DecodeError where
  | MalformedPacket
deriving DecidableEq

/-- Modelled from the spec (§4.1): `nth_col(icol, packet_buf)`, the
bounds-checked view into the packet at the column's fixed offset; "any
operation given a buffer shorter than the expected packet size fails with a
`MalformedPacket` condition."  `expected` is the fixed lidar packet byte
size. -/
def nth_col (expected : Nat) (icol : Nat) (p : PacketMsg) : Except DecodeError Column :=
  if p.len < expected then .error .MalformedPacket else .ok (p.col icol)

/-- The dynamic-reconfigure parameter struct `OusterOS1Config`:
`min_range`/`max_range` are `double`, `image_width` an `int`, plus the two
flags. -/
structure Config where
  min_range : ℚ
  max_range : ℚ
  image_width : Nat
  organized : Bool
  full_sweep : Bool

/-- The decoder state touched by the two callbacks: the current configuration
`config_` and the packet buffer `buffer_`. -/
structure DecoderState where
  config : Config
  buffer : List PacketMsg

/-- `Decoder::ConfigCb`: clamp `min_range` to `max_range`
(`config.min_range = std::min(config.min_range, config.max_range)`), round
`image_width` down to a multiple of `columns_per_buffer`
(`config.image_width /= columns_per_buffer; config.image_width *=
columns_per_buffer`), store the configuration and clear the packet buffer. -/
def ConfigCb (_s : DecoderState) (c : Config) : DecoderState :=
  let c := { c with
    min_range := min c.min_range c.max_range,
    image_width := c.image_width / columns_per_buffer * columns_per_buffer }
  { config := c, buffer := [] }

/-- The accumulator step of `Decoder::LidarPacketCb`: push the packet onto
`buffer_`; if `buffer_.size() * columns_per_buffer < config_.image_width`
return without output, otherwise publish the decoded sweep (the emitted second
component carries the full packet buffer it is built from) and clear
`buffer_`. -/
def LidarPacketCb (s : DecoderState) (p : PacketMsg) : DecoderState × Option (List PacketMsg) :=
  let buffer := s.buffer ++ [p]
  let curr_width := buffer.length * columns_per_buffer
  if curr_width < s.config.image_width then
    ({ s with buffer := buffer }, none)
  else
    ({ s with buffer := [] }, some buffer)

/-- Serial delivery of a list of lidar packets to `Decoder::LidarPacketCb`,
collecting the emitted sweeps in order. -/
def processPackets (s : DecoderState) : List PacketMsg → DecoderState × List (List PacketMsg)
  | [] => (s, [])
  | p :: ps =>
    let step := LidarPacketCb s p
    let rest := processPackets step.1 ps
    (rest.1, match step.2 with
      | none => rest.2
      | some b => b :: rest.2)

/-- One cell's three floating channels `[range, reflectivity, azimuth]`
(`cv::Vec3f`). -/
abbrev Cell := ℝ × ℝ × ℝ

/-- The intermediate image: `cv::Mat(pixels_per_column, curr_width, CV_32FC3,
cv::Scalar(kNaNF))` — `rows` beams by `cols` azimuth steps; `data r c = none`
models a cell still holding the all-NaN initialisation. -/
structure RangeImage where
  rows : Nat
  cols : Nat
  data : Nat → Nat → Option Cell

/-- Write one cell: `image.at<cv::Vec3f>(r, c) = v`. -/
def RangeImage.setCell (img : RangeImage) (r c : Nat) (v : Cell) : RangeImage :=
  { img with data := fun r' c' => if r' = r ∧ c' = c then some v else img.data r' c' }

/-- The calibration fields of `info_` that the decode loop reads, already
converted to radians by `TransformDeg2RadInPlace`. -/
structure CalibrationInfo where
  beam_altitude_angles : Nat → ℝ
  beam_azimuth_angles : Nat → ℝ

/-- The triple stored for beam `ipx` of a valid column (`v[0] = range *
range_factor; v[1] = px_reflectivity(px_buf); v[2] = theta0 +
info_.beam_azimuth_angles[ipx]`, with `theta0` the column's horizontal
angle). -/
noncomputable def cellVal (info : CalibrationInfo) (cd : Column) (ipx : Nat) : Cell :=
  ((cd.px ipx).range * range_factor,
   ((cd.px ipx).reflectivity : ℝ),
   cd.h_angle + info.beam_azimuth_angles ipx)

/-- The inner beam loop of `Decoder::LidarPacketCb`: `for ipx in
0..pixels_per_column`, write `cellVal` into `image.at(ipx, col)`. -/
noncomputable def writeColumn (info : CalibrationInfo) (cd : Column) (col : Nat)
    (img : RangeImage) : RangeImage :=
  (List.range pixels_per_column).foldl
    (fun im ipx => im.setCell ipx col (cellVal info cd ipx)) img

/-- The column loop of `Decoder::LidarPacketCb` for the packet at buffer index
`ibuf`: for each `icol`, fetch the column through `nth_col` (the
`measurement_id` and `frame_id` reads of the source are dropped as unused); if
the validity word is not `0xffffffff`, drop the block (`continue`), otherwise
write all beams at global column `ibuf * columns_per_buffer + icol`.  Per the
spec's `MalformedPacket` policy a packet whose decode fails is skipped
wholesale. -/
noncomputable def decodePacketInto (expected : Nat) (info : CalibrationInfo)
    (p : PacketMsg) (ibuf : Nat) (img : RangeImage) : RangeImage :=
  (List.range columns_per_buffer).foldl
    (fun im icol =>
      match nth_col expected icol p with
      | .error _ => im
      | .ok cd =>
        if cd.valid = 0xffffffff then
          writeColumn info cd (ibuf * columns_per_buffer + icol) im
        else im)
    img

/-- The packet loop of `Decoder::LidarPacketCb`: decode the packets of the
buffer in order, `ibuf` counting from the given start index. -/
noncomputable def buildLoop (expected : Nat) (info : CalibrationInfo) :
    List PacketMsg → Nat → RangeImage → RangeImage
  | [], _, img => img
  | p :: rest, ibuf, img =>
      buildLoop expected info rest (ibuf + 1) (decodePacketInto expected info p ibuf img)

/-- The image-building part of `Decoder::LidarPacketCb`: allocate an all-NaN
`pixels_per_column × (buffer.length * columns_per_buffer)` image and run the
packet loop over the full buffer. -/
noncomputable def buildImage (expected : Nat) (info : CalibrationInfo)
    (buffer : List PacketMsg) : RangeImage :=
  buildLoop expected info buffer 0
    ⟨pixels_per_column, buffer.length * columns_per_buffer, fun _ _ => none⟩

/-- The per-cell content of the built image, phrased directly: column `c` is
served by packet `c / columns_per_buffer`, column-within-packet
`c % columns_per_buffer`; the cell is written iff that packet exists, its
buffer is long enough, the column's validity word is the all-ones sentinel and
the row is a beam index. -/
noncomputable def builtCell (expected : Nat) (info : CalibrationInfo)
    (buffer : List PacketMsg) (r c : Nat) : Option Cell :=
  match buffer.get? (c / columns_per_buffer) with
  | none => none
  | some p =>
    if expected ≤ p.len ∧ (p.col (c % columns_per_buffer)).valid = 0xffffffff
        ∧ r < pixels_per_column then
      some (cellVal info (p.col (c % columns_per_buffer)) r)
    else none

/-- A `pcl::PointXYZI` as pushed by `ToCloud`: either the organized-mode
placeholder with `p.x = p.y = p.z = p.intensity = kNaNF` (no real number is
NaN, so it is a distinguished constructor here) or a finite point. -/
inductive CloudPoint where
  | nanPoint
  | pt (x y z intensity : ℝ)

/-- Whether this is the all-NaN placeholder point. -/
def CloudPoint.isNan : CloudPoint → Bool
  | .nanPoint => true
  | .pt _ _ _ _ => false

/-- The `pcl::PointCloud` result of `ToCloud`: the pushed points and the
`width`/`height` fields set at the end. -/
structure Cloud where
  points : List CloudPoint
  width : Nat
  height : Nat

/-- The body of `ToCloud`'s column loop for one cell: if `std::isnan(data[0])`
push the all-NaN placeholder when `organized` (else nothing); otherwise push
`(d cos phi cos theta, -(d cos phi sin theta), d sin phi)` with the cell's
reflectivity as intensity. -/
noncomputable def projectCell (phi : ℝ) (cell : Option Cell) (organized : Bool) :
    List CloudPoint :=
  match cell with
  | none => if organized then [.nanPoint] else []
  | some (d, refl, theta) =>
      [.pt (d * Real.cos phi * Real.cos theta)
           (-(d * Real.cos phi * Real.sin theta))
           (d * Real.sin phi)
           refl]

/-- `ToCloud(image_msg, cinfo_msg, organized)`: scan the image row-major
(`phi = altitude_angles[r]` per row), push points per `projectCell`, then set
`width`/`height`: the image shape if organized, else a flat cloud of
`cloud.size()` points. -/
noncomputable def ToCloud (img : RangeImage) (altitude_angles : Nat → ℝ)
    (organized : Bool) : Cloud :=
  let points :=
    (List.range img.rows).flatMap fun r =>
      (List.range img.cols).flatMap fun c =>
        projectCell (altitude_angles r) (img.data r c) organized
  if organized then
    { points := points, width := img.cols, height := img.rows }
  else
    { points := points, width := points.length, height := 1 }

/-- The cloud published by `Decoder::LidarPacketCb` for a finished sweep image:
`ToCloud(image_msg, *cinfo_msg, config_.organized)`, with
`cinfo_msg->D = info_.beam_altitude_angles`. -/
noncomputable def sweepCloud (cfg : Config) (info : CalibrationInfo)
    (img : RangeImage) : Cloud :=
  ToCloud img info.beam_altitude_angles cfg.organized

/-- The number of non-sentinel (written) cells of the image, row-major. -/
def validCount (img : RangeImage) : Nat :=
  ((List.range img.rows).map fun r =>
    ((List.range img.cols).filter fun c => (img.data r c).isSome).length).sum

lemma setCell_data (img : RangeImage) (r c : Nat) (v : Cell) (r' c' : Nat) :
    (img.setCell r c v).data r' c' = if r' = r ∧ c' = c then some v else img.data r' c' := rfl

lemma setCell_rows (img : RangeImage) (r c : Nat) (v : Cell) :
    (img.setCell r c v).rows = img.rows := rfl

lemma setCell_cols (img : RangeImage) (r c : Nat) (v : Cell) :
    (img.setCell r c v).cols = img.cols := rfl

lemma foldl_setCell_data (f : Nat → Cell) (col : Nat) (img : RangeImage) (n r c : Nat) :
    ((List.range n).foldl (fun im ipx => im.setCell ipx col (f ipx)) img).data r c
      = if c = col ∧ r < n then some (f r) else img.data r c := by
  induction n with
  | zero => simp
  | succ n ih =>
    rw [List.range_succ, List.foldl_append, List.foldl_cons, List.foldl_nil, setCell_data]
    by_cases hc : c = col
    · subst hc
      by_cases hr : r = n
      · subst hr
        rw [if_pos ⟨rfl, rfl⟩, if_pos ⟨rfl, Nat.lt_succ_self r⟩]
      · rw [if_neg (fun h => hr h.1), ih]
        by_cases hrn : r < n
        · rw [if_pos ⟨rfl, hrn⟩, if_pos ⟨rfl, Nat.lt_succ_of_lt hrn⟩]
        · rw [if_neg (fun h => hrn h.2), if_neg (by rintro ⟨-, h2⟩; omega)]
    · rw [if_neg (fun h => hc h.2), ih, if_neg (fun h => hc h.1),
        if_neg (fun h => hc h.1)]

lemma foldl_setCell_rows (f : Nat → Cell) (col : Nat) (l : List Nat) (img : RangeImage) :
    (l.foldl (fun im ipx => im.setCell ipx col (f ipx)) img).rows = img.rows := by
  induction l generalizing img with
  | nil => rfl
  | cons a l ih => rw [List.foldl_cons]; exact ih _

lemma foldl_setCell_cols (f : Nat → Cell) (col : Nat) (l : List Nat) (img : RangeImage) :
    (l.foldl (fun im ipx => im.setCell ipx col (f ipx)) img).cols = img.cols := by
  induction l generalizing img with
  | nil => rfl
  | cons a l ih => rw [List.foldl_cons]; exact ih _

lemma writeColumn_data (info : CalibrationInfo) (cd : Column) (col : Nat)
    (img : RangeImage) (r c : Nat) :
    (writeColumn info cd col img).data r c
      = if c = col ∧ r < pixels_per_column then some (cellVal info cd r)
        else img.data r c :=
  foldl_setCell_data (cellVal info cd) col img pixels_per_column r c

lemma writeColumn_rows (info : CalibrationInfo) (cd : Column) (col : Nat) (img : RangeImage) :
    (writeColumn info cd col img).rows = img.rows :=
  foldl_setCell_rows (cellVal info cd) col _ img

lemma writeColumn_cols (info : CalibrationInfo) (cd : Column) (col : Nat) (img : RangeImage) :
    (writeColumn info cd col img).cols = img.cols :=
  foldl_setCell_cols (cellVal info cd) col _ img

/-- The column step of the decode loop, with the `nth_col` result and validity
test flattened into a single condition. -/
lemma decodeStep_eq (expected : Nat) (info : CalibrationInfo) (p : PacketMsg)
    (ibuf : Nat) (im : RangeImage) (icol : Nat) :
    (match nth_col expected icol p with
      | .error _ => im
      | .ok cd =>
        if cd.valid = 0xffffffff then
          writeColumn info cd (ibuf * columns_per_buffer + icol) im
        else im)
    = if expected ≤ p.len ∧ (p.col icol).valid = 0xffffffff
      then writeColumn info (p.col icol) (ibuf * columns_per_buffer + icol) im
      else im := by
  by_cases hlen : p.len < expected
  · simp only [nth_col, if_pos hlen]
    rw [if_neg (by rintro ⟨h, -⟩; omega)]
  · simp only [nth_col, if_neg hlen]
    by_cases hv : (p.col icol).valid = 0xffffffff
    · rw [if_pos hv, if_pos ⟨by omega, hv⟩]
    · rw [if_neg hv, if_neg (fun h => hv h.2)]

lemma foldl_decodeCols_data (expected : Nat) (info : CalibrationInfo) (p : PacketMsg)
    (ibuf : Nat) (img : RangeImage) (n r c : Nat) :
    ((List.range n).foldl
      (fun im icol =>
        if expected ≤ p.len ∧ (p.col icol).valid = 0xffffffff
        then writeColumn info (p.col icol) (ibuf * columns_per_buffer + icol) im
        else im)
      img).data r c
    = if ibuf * columns_per_buffer ≤ c ∧ c < ibuf * columns_per_buffer + n
        ∧ expected ≤ p.len
        ∧ (p.col (c - ibuf * columns_per_buffer)).valid = 0xffffffff
        ∧ r < pixels_per_column
      then some (cellVal info (p.col (c - ibuf * columns_per_buffer)) r)
      else img.data r c := by
  induction n with
  | zero =>
    rw [List.range_zero, List.foldl_nil, if_neg (by rintro ⟨h1, h2, -⟩; omega)]
  | succ n ih =>
    rw [List.range_succ, List.foldl_append, List.foldl_cons, List.foldl_nil]
    by_cases hstep : expected ≤ p.len ∧ (p.col n).valid = 0xffffffff
    · rw [if_pos hstep, writeColumn_data, ih]
      by_cases hcol : c = ibuf * columns_per_buffer + n
      · have hsub : c - ibuf * columns_per_buffer = n := by omega
        by_cases hr : r < pixels_per_column
        · rw [if_pos ⟨hcol, hr⟩, if_pos (by subst hcol; exact
            ⟨by omega, by omega, hstep.1, by rw [hsub]; exact hstep.2, hr⟩)]
          rw [hsub]
        · rw [if_neg (fun h => hr h.2), if_neg (by rintro ⟨-, -, -, -, h5⟩; exact hr h5),
            if_neg (by rintro ⟨-, -, -, -, h5⟩; exact hr h5)]
      · rw [if_neg (fun h => hcol h.1)]
        by_cases hin : ibuf * columns_per_buffer ≤ c ∧ c < ibuf * columns_per_buffer + n
        · by_cases hrest : (p.col (c - ibuf * columns_per_buffer)).valid = 0xffffffff
              ∧ r < pixels_per_column
          · rw [if_pos ⟨hin.1, hin.2, hstep.1, hrest.1, hrest.2⟩,
              if_pos ⟨hin.1, by omega, hstep.1, hrest.1, hrest.2⟩]
          · rw [if_neg (by rintro ⟨-, -, -, h4, h5⟩; exact hrest ⟨h4, h5⟩),
              if_neg (by rintro ⟨-, -, -, h4, h5⟩; exact hrest ⟨h4, h5⟩)]
        · rw [if_neg (fun h => hin ⟨h.1, h.2.1⟩),
            if_neg (by rintro ⟨h1, h2, -, -, -⟩; exact hin ⟨h1, by omega⟩)]
    · rw [if_neg hstep, ih]
      by_cases hall : (ibuf * columns_per_buffer ≤ c ∧ c < ibuf * columns_per_buffer + n
          ∧ expected ≤ p.len
          ∧ (p.col (c - ibuf * columns_per_buffer)).valid = 0xffffffff
          ∧ r < pixels_per_column)
      · rw [if_pos hall, if_pos ⟨hall.1, by omega, hall.2.2.1, hall.2.2.2.1, hall.2.2.2.2⟩]
      · rw [if_neg hall]
        by_cases h1 : c = ibuf * columns_per_buffer + n
        · have hsub : c - ibuf * columns_per_buffer = n := by omega
          rw [if_neg (by rintro ⟨-, -, h3, h4, -⟩; rw [hsub] at h4; exact hstep ⟨h3, h4⟩)]
        · rw [if_neg (by rintro ⟨g1, g2, g3, g4, g5⟩; exact hall ⟨g1, by omega, g3, g4, g5⟩)]

lemma decodePacketInto_data (expected : Nat) (info : CalibrationInfo) (p : PacketMsg)
    (ibuf : Nat) (img : RangeImage) (r c : Nat) :
    (decodePacketInto expected info p ibuf img).data r c
    = if ibuf * columns_per_buffer ≤ c ∧ c < ibuf * columns_per_buffer + columns_per_buffer
        ∧ expected ≤ p.len
        ∧ (p.col (c - ibuf * columns_per_buffer)).valid = 0xffffffff
        ∧ r < pixels_per_column
      then some (cellVal info (p.col (c - ibuf * columns_per_buffer)) r)
      else img.data r c := by
  unfold decodePacketInto
  simp only [decodeStep_eq]
  exact foldl_decodeCols_data expected info p ibuf img columns_per_buffer r c

lemma foldl_dims_preserved (step : RangeImage → Nat → RangeImage)
    (hstep : ∀ im a, (step im a).rows = im.rows ∧ (step im a).cols = im.cols)
    (l : List Nat) (img : RangeImage) :
    (l.foldl step img).rows = img.rows ∧ (l.foldl step img).cols = img.cols := by
  induction l generalizing img with
  | nil => exact ⟨rfl, rfl⟩
  | cons a l ih =>
    rw [List.foldl_cons]
    exact ⟨(ih _).1.trans (hstep img a).1, (ih _).2.trans (hstep img a).2⟩

lemma decodePacketInto_dims (expected : Nat) (info : CalibrationInfo) (p : PacketMsg)
    (ibuf : Nat) (img : RangeImage) :
    (decodePacketInto expected info p ibuf img).rows = img.rows
      ∧ (decodePacketInto expected info p ibuf img).cols = img.cols := by
  unfold decodePacketInto
  refine foldl_dims_preserved _ (fun im a => ?_) _ img
  rw [decodeStep_eq]
  by_cases h : expected ≤ p.len ∧ (p.col a).valid = 0xffffffff
  · rw [if_pos h]
    exact ⟨writeColumn_rows _ _ _ _, writeColumn_cols _ _ _ _⟩
  · rw [if_neg h]
    exact ⟨rfl, rfl⟩

lemma buildLoop_dims (expected : Nat) (info : CalibrationInfo) (buf : List PacketMsg)
    (ibuf : Nat) (img : RangeImage) :
    (buildLoop expected info buf ibuf img).rows = img.rows
      ∧ (buildLoop expected info buf ibuf img).cols = img.cols := by
  induction buf generalizing ibuf img with
  | nil => exact ⟨rfl, rfl⟩
  | cons p rest ih =>
    simp only [buildLoop]
    exact ⟨(ih _ _).1.trans (decodePacketInto_dims _ _ _ _ _).1,
      (ih _ _).2.trans (decodePacketInto_dims _ _ _ _ _).2⟩

lemma buildLoop_data_below (expected : Nat) (info : CalibrationInfo)
    (buf : List PacketMsg) (ibuf : Nat) (img : RangeImage) (r c : Nat)
    (hc : c < ibuf * columns_per_buffer) :
    (buildLoop expected info buf ibuf img).data r c = img.data r c := by
  induction buf generalizing ibuf img with
  | nil => rfl
  | cons p rest ih =>
    simp only [buildLoop]
    rw [ih (ibuf + 1) _
      (Nat.lt_of_lt_of_le hc (Nat.mul_le_mul_right _ (Nat.le_succ ibuf)))]
    rw [decodePacketInto_data, if_neg (by rintro ⟨h1, -⟩; omega)]

lemma buildLoop_data (expected : Nat) (info : CalibrationInfo) (buf : List PacketMsg)
    (ibuf : Nat) (img : RangeImage) (r c : Nat) (hc : ibuf * columns_per_buffer ≤ c) :
    (buildLoop expected info buf ibuf img).data r c =
      match buf.get? (c / columns_per_buffer - ibuf) with
      | none => img.data r c
      | some p =>
        if expected ≤ p.len ∧ (p.col (c % columns_per_buffer)).valid = 0xffffffff
            ∧ r < pixels_per_column
        then some (cellVal info (p.col (c % columns_per_buffer)) r)
        else img.data r c := by
  induction buf generalizing ibuf img hc with
  | nil => rfl
  | cons p rest ih =>
    simp only [buildLoop]
    by_cases hwin : c < ibuf * columns_per_buffer + columns_per_buffer
    · have hdiv : c / columns_per_buffer = ibuf := by
        simp only [columns_per_buffer] at hc hwin ⊢; omega
      have hsub : c - ibuf * columns_per_buffer = c % columns_per_buffer := by
        simp only [columns_per_buffer] at hc hwin ⊢; omega
      have h0 : c / columns_per_buffer - ibuf = 0 := by rw [hdiv]; omega
      rw [h0, List.get?_cons_zero]
      show _ = if expected ≤ p.len ∧ (p.col (c % columns_per_buffer)).valid = 0xffffffff
          ∧ r < pixels_per_column
        then some (cellVal info (p.col (c % columns_per_buffer)) r)
        else img.data r c
      rw [buildLoop_data_below _ _ _ _ _ _ _
        (by simp only [columns_per_buffer] at hwin ⊢; omega)]
      rw [decodePacketInto_data, hsub]
      by_cases hcond : expected ≤ p.len
          ∧ (p.col (c % columns_per_buffer)).valid = 0xffffffff ∧ r < pixels_per_column
      · rw [if_pos ⟨hc, hwin, hcond.1, hcond.2.1, hcond.2.2⟩, if_pos hcond]
      · rw [if_neg (by rintro ⟨-, -, h3, h4, h5⟩; exact hcond ⟨h3, h4, h5⟩), if_neg hcond]
    · have hge : (ibuf + 1) * columns_per_buffer ≤ c := by
        simp only [columns_per_buffer] at hc hwin ⊢; omega
      rw [ih (ibuf + 1) _ hge]
      have hidx : c / columns_per_buffer - ibuf = (c / columns_per_buffer - (ibuf + 1)) + 1 := by
        simp only [columns_per_buffer] at hc hwin hge ⊢; omega
      rw [hidx, List.get?_cons_succ]
      have himg : (decodePacketInto expected info p ibuf img).data r c = img.data r c := by
        rw [decodePacketInto_data, if_neg (by rintro ⟨-, h2, -⟩; exact hwin h2)]
      cases hg : rest.get? (c / columns_per_buffer - (ibuf + 1)) with
      | none => exact himg
      | some q =>
        show (if _ then _ else (decodePacketInto expected info p ibuf img).data r c)
          = if _ then _ else img.data r c
        rw [himg]

/-- Per-cell characterisation of the image built by the decode loop of
`Decoder::LidarPacketCb`. -/
theorem buildImage_data (expected : Nat) (info : CalibrationInfo)
    (buf : List PacketMsg) (r c : Nat) :
    (buildImage expected info buf).data r c = builtCell expected info buf r c := by
  unfold buildImage builtCell
  rw [buildLoop_data _ _ _ _ _ _ _ (by simp)]
  rw [Nat.sub_zero]

/-- The built image always has `pixels_per_column` rows and
`buffer.length * columns_per_buffer` columns. -/
theorem buildImage_dims (expected : Nat) (info : CalibrationInfo)
    (buf : List PacketMsg) :
    (buildImage expected info buf).rows = pixels_per_column
      ∧ (buildImage expected info buf).cols = buf.length * columns_per_buffer := by
  unfold buildImage
  exact buildLoop_dims _ _ _ _ _

lemma projectCell_none_organized (phi : ℝ) :
    projectCell phi none true = [.nanPoint] := rfl

lemma projectCell_none_unorganized (phi : ℝ) :
    projectCell phi none false = [] := rfl

lemma projectCell_some (phi : ℝ) (d refl theta : ℝ) (organized : Bool) :
    projectCell phi (some (d, refl, theta)) organized
      = [.pt (d * Real.cos phi * Real.cos theta)
             (-(d * Real.cos phi * Real.sin theta))
             (d * Real.sin phi) refl] := rfl

lemma projectCell_length_organized (phi : ℝ) (cell : Option Cell) :
    (projectCell phi cell true).length = 1 := by
  cases cell with
  | none => rfl
  | some v => obtain ⟨d, refl, theta⟩ := v; rfl

lemma projectCell_length_unorganized (phi : ℝ) (cell : Option Cell) :
    (projectCell phi cell false).length = if cell.isSome then 1 else 0 := by
  cases cell with
  | none => rfl
  | some v => obtain ⟨d, refl, theta⟩ := v; rfl

lemma projectCell_unorganized_eq_filter (phi : ℝ) (cell : Option Cell) :
    projectCell phi cell false
      = (projectCell phi cell true).filter (fun q => !q.isNan) := by
  cases cell with
  | none => rfl
  | some v => obtain ⟨d, refl, theta⟩ := v; rfl

lemma flatMap_length_const {α β : Type} (l : List α) (f : α → List β) (k : Nat)
    (h : ∀ x ∈ l, (f x).length = k) : (l.flatMap f).length = l.length * k := by
  induction l with
  | nil => simp
  | cons a l ih =>
    rw [List.flatMap_cons, List.length_append, h a (List.mem_cons_self a l),
      ih (fun x hx => h x (List.mem_cons_of_mem a hx)), List.length_cons]
    ring

lemma flatMap_length_filter {α β : Type} (l : List α) (f : α → List β) (p : α → Bool)
    (h : ∀ x ∈ l, (f x).length = if p x then 1 else 0) :
    (l.flatMap f).length = (l.filter p).length := by
  induction l with
  | nil => rfl
  | cons a l ih =>
    rw [List.flatMap_cons, List.length_append, h a (List.mem_cons_self a l),
      ih (fun x hx => h x (List.mem_cons_of_mem a hx)), List.filter_cons]
    by_cases hp : p a
    · rw [if_pos hp, if_pos hp, List.length_cons]
      omega
    · rw [if_neg hp, if_neg hp]
      omega

lemma filter_flatMap_comm {α β : Type} (l : List α) (f : α → List β) (p : β → Bool) :
    (l.flatMap f).filter p = l.flatMap (fun x => (f x).filter p) := by
  induction l with
  | nil => rfl
  | cons a l ih => rw [List.flatMap_cons, List.flatMap_cons, List.filter_append, ih]

/-- The scan of `ToCloud`, before the `width`/`height` bookkeeping. -/
noncomputable def cloudScan (img : RangeImage) (altitude_angles : Nat → ℝ)
    (organized : Bool) : List CloudPoint :=
  (List.range img.rows).flatMap fun r =>
    (List.range img.cols).flatMap fun c =>
      projectCell (altitude_angles r) (img.data r c) organized

lemma ToCloud_organized (img : RangeImage) (alt : Nat → ℝ) :
    ToCloud img alt true
      = { points := cloudScan img alt true, width := img.cols, height := img.rows } := rfl

lemma ToCloud_unorganized (img : RangeImage) (alt : Nat → ℝ) :
    ToCloud img alt false
      = { points := cloudScan img alt false,
          width := (cloudScan img alt false).length, height := 1 } := rfl

lemma flatMap_congr_left {α β : Type} (l : List α) (f g : α → List β)
    (h : ∀ x ∈ l, f x = g x) : l.flatMap f = l.flatMap g := by
  induction l with
  | nil => rfl
  | cons a l ih =>
    rw [List.flatMap_cons, List.flatMap_cons, h a (List.mem_cons_self a l),
      ih (fun x hx => h x (List.mem_cons_of_mem a hx))]

lemma cloudScan_organized_length (img : RangeImage) (alt : Nat → ℝ) :
    (cloudScan img alt true).length = img.rows * img.cols := by
  unfold cloudScan
  rw [flatMap_length_const _ _ img.cols (fun r _ => by
    rw [flatMap_length_const _ _ 1
        (fun c _ => projectCell_length_organized (alt r) (img.data r c)),
      List.length_range, Nat.mul_one]), List.length_range]

lemma cloudScan_unorganized_length (img : RangeImage) (alt : Nat → ℝ) :
    (cloudScan img alt false).length = validCount img := by
  unfold cloudScan validCount
  rw [List.length_flatMap]
  congr 1
  refine List.map_congr_left (fun r _ => ?_)
  simp only [Function.comp_apply]
  rw [flatMap_length_filter _ _ (fun c => (img.data r c).isSome)
    (fun c _ => projectCell_length_unorganized (alt r) (img.data r c))]

lemma cloudScan_unorganized_eq_filter (img : RangeImage) (alt : Nat → ℝ) :
    cloudScan img alt false
      = (cloudScan img alt true).filter (fun q => !q.isNan) := by
  unfold cloudScan
  rw [filter_flatMap_comm]
  refine flatMap_congr_left _ _ _ (fun r _ => ?_)
  rw [filter_flatMap_comm]
  exact flatMap_congr_left _ _ _
    (fun c _ => projectCell_unorganized_eq_filter (alt r) (img.data r c))

lemma mem_cloudScan (img : RangeImage) (alt : Nat → ℝ) (organized : Bool)
    (r c : Nat) (d refl theta : ℝ) (hr : r < img.rows) (hc : c < img.cols)
    (hcell : img.data r c = some (d, refl, theta)) :
    CloudPoint.pt (d * Real.cos (alt r) * Real.cos theta)
        (-(d * Real.cos (alt r) * Real.sin theta))
        (d * Real.sin (alt r)) refl
      ∈ cloudScan img alt organized := by
  unfold cloudScan
  refine List.mem_flatMap.mpr ⟨r, List.mem_range.mpr hr, ?_⟩
  refine List.mem_flatMap.mpr ⟨c, List.mem_range.mpr hc, ?_⟩
  rw [hcell, projectCell_some]
  exact List.mem_singleton.mpr rfl

lemma ToCloud_points (img : RangeImage) (alt : Nat → ℝ) (organized : Bool) :
    (ToCloud img alt organized).points = cloudScan img alt organized := by
  cases organized
  · rfl
  · rfl

/-- Closed form of one accumulator step of `Decoder::LidarPacketCb`. -/
lemma LidarPacketCb_eq (s : DecoderState) (p : PacketMsg) :
    LidarPacketCb s p =
      if (s.buffer.length + 1) * columns_per_buffer < s.config.image_width
      then ({ s with buffer := s.buffer ++ [p] }, none)
      else ({ s with buffer := [] }, some (s.buffer ++ [p])) := by
  simp only [LidarPacketCb, List.length_append, List.length_cons, List.length_nil]

/-- While the accumulated width stays strictly below the configured image
width, packets pile up in `buffer_` and nothing is emitted. -/
lemma processPackets_no_emit (s : DecoderState) (ps : List PacketMsg)
    (h : (s.buffer.length + ps.length) * columns_per_buffer < s.config.image_width) :
    processPackets s ps = ({ s with buffer := s.buffer ++ ps }, []) := by
  induction ps generalizing s with
  | nil => simp [processPackets]
  | cons p ps ih =>
    simp only [processPackets]
    rw [LidarPacketCb_eq, if_pos (by
      refine Nat.lt_of_le_of_lt (Nat.mul_le_mul_right _ ?_) h
      simp only [List.length_cons]
      omega)]
    rw [ih { s with buffer := s.buffer ++ [p] } (by
      simp only [List.length_append, List.length_cons, List.length_nil]
      simp only [List.length_cons] at h
      exact Nat.lt_of_le_of_lt (Nat.mul_le_mul_right _ (by omega)) h)]
    simp [List.append_assoc]

/-- Every packet inside any sweep emitted while processing `ps` satisfies any
property that held of the initial buffer contents and of `ps` itself. -/
lemma processPackets_emissions_from (P : PacketMsg → Prop) (s : DecoderState)
    (ps : List PacketMsg) (hbuf : ∀ q ∈ s.buffer, P q) (hps : ∀ q ∈ ps, P q) :
    ∀ b ∈ (processPackets s ps).2, ∀ q ∈ b, P q := by
  induction ps generalizing s with
  | nil => simp [processPackets]
  | cons p ps ih =>
    simp only [processPackets]
    rw [LidarPacketCb_eq]
    by_cases hcond : (s.buffer.length + 1) * columns_per_buffer < s.config.image_width
    · rw [if_pos hcond]
      simp only []
      refine ih { s with buffer := s.buffer ++ [p] } ?_ ?_
      · intro q hq
        rcases List.mem_append.mp hq with hql | hqr
        · exact hbuf q hql
        · rw [List.mem_singleton] at hqr
          exact hps q (by rw [hqr]; exact List.mem_cons_self p ps)
      · exact fun q hq => hps q (List.mem_cons_of_mem p hq)
    · rw [if_neg hcond]
      simp only []
      intro b hb
      rcases List.mem_cons.mp hb with hbe | hbr
      · subst hbe
        intro q hq
        rcases List.mem_append.mp hq with hql | hqr
        · exact hbuf q hql
        · rw [List.mem_singleton] at hqr
          exact hps q (by rw [hqr]; exact List.mem_cons_self p ps)
      · exact ih { s with buffer := [] } (by simp)
          (fun q hq => hps q (List.mem_cons_of_mem p hq)) b hbr

/-- A byte-less packet (length 0, all-zero fields) used as a concrete input. -/
noncomputable def testPacket : PacketMsg :=
  { len := 0,
    col := fun _ =>
      { measurement_id := 0, frame_id := 0, valid := 0, h_angle := 0,
        px := fun _ => { range := 0, reflectivity := 0 } } }

/-- A packet long enough to decode, with every column valid. -/
noncomputable def validPacket : PacketMsg :=
  { len := 12608,
    col := fun _ =>
      { measurement_id := 0, frame_id := 0, valid := 0xffffffff, h_angle := 0,
        px := fun _ => { range := 2000, reflectivity := 7 } } }

/-- All-zero calibration angles. -/
noncomputable def testInfo : CalibrationInfo :=
  { beam_altitude_angles := fun _ => 0, beam_azimuth_angles := fun _ => 0 }

/-- A configuration with the default 1024-column sweep width. -/
def testConfig : Config :=
  { min_range := 0, max_range := 0, image_width := 1024,
    organized := false, full_sweep := false }

/-- `testConfig` with a sweep width of a single packet. -/
def testConfig16 : Config :=
  { testConfig with image_width := 16 }

/-- An incoming configuration with `min_range > max_range`. -/
def testConfigSwapped : Config :=
  { testConfig with min_range := 5, max_range := 2 }

/-- An incoming configuration whose requested width 1000 is not a multiple of
`columns_per_buffer`. -/
def testConfigW1000 : Config :=
  { testConfig with image_width := 1000 }

/-- `testConfig` with different range bounds only. -/
def testConfigFar : Config :=
  { testConfig with min_range := 100, max_range := 200 }

/-- Decoder state with the default configuration and an empty buffer. -/
def testState : DecoderState := { config := testConfig, buffer := [] }

/-- Decoder state with a configured width of 0. -/
def testState0 : DecoderState :=
  { config := { testConfig with image_width := 0 }, buffer := [] }

/-- A one-cell image holding range 10, reflectivity 7, azimuth 0. -/
noncomputable def testImage : RangeImage :=
  { rows := 1, cols := 1, data := fun _ _ => some ((10 : ℝ), (7 : ℝ), (0 : ℝ)) }

/-- Claim C1: on every packet arrival the accumulator appends the packet to
`buffer_` and emits a sweep exactly when `buffer.length * columns_per_buffer ≥
config.image_width`, clearing the buffer within the same call; with
`columns_per_buffer = 16` and `image_width = 1024`, 63 packets from an empty
buffer emit nothing and the 64th packet's arrival synchronously emits all 64
and clears the buffer. -/
theorem sweep_emission_rule_C1 (s : DecoderState) (p : PacketMsg)
    (s0 : DecoderState) (ps : List PacketMsg) (q : PacketMsg)
    (h0 : s0.buffer = []) (hw : s0.config.image_width = 1024)
    (hlen : ps.length = 63) :
    (LidarPacketCb s p =
      if (s.buffer.length + 1) * columns_per_buffer < s.config.image_width
      then ({ s with buffer := s.buffer ++ [p] }, none)
      else ({ s with buffer := [] }, some (s.buffer ++ [p])))
    ∧ processPackets s0 ps = ({ s0 with buffer := ps }, [])
    ∧ LidarPacketCb { s0 with buffer := ps } q
        = ({ s0 with buffer := [] }, some (ps ++ [q])) := by
  refine ⟨LidarPacketCb_eq s p, ?_, ?_⟩
  · have h := processPackets_no_emit s0 ps (by
      rw [h0, hw, hlen]
      simp only [List.length_nil, columns_per_buffer]
      omega)
    rw [h, h0]
    simp
  · rw [LidarPacketCb_eq]
    rw [if_neg (by
      simp only [List.length_cons, hlen, hw, columns_per_buffer]
      omega)]

/-- Witness for C1 at a concrete 63-packet prefix. -/
theorem sweep_emission_rule_C1_witness :
    testState.buffer = [] ∧ testState.config.image_width = 1024
      ∧ (List.replicate 63 testPacket).length = 63
      ∧ processPackets testState (List.replicate 63 testPacket)
          = ({ testState with buffer := List.replicate 63 testPacket }, [])
      ∧ LidarPacketCb { testState with buffer := List.replicate 63 testPacket } testPacket
          = ({ testState with buffer := [] },
             some (List.replicate 63 testPacket ++ [testPacket])) :=
  ⟨rfl, rfl, by simp,
    (sweep_emission_rule_C1 testState testPacket testState
      (List.replicate 63 testPacket) testPacket rfl rfl (by simp)).2.1,
    (sweep_emission_rule_C1 testState testPacket testState
      (List.replicate 63 testPacket) testPacket rfl rfl (by simp)).2.2⟩

/-- Claim C8: `Decoder::ConfigCb` normalizes every incoming configuration
before applying it: when `min_range > max_range` the stored configuration has
`min_range = max_range = ` the incoming `max_range`; and for every incoming
configuration the stored `image_width` is `image_width / columns_per_buffer *
columns_per_buffer` — a multiple of `columns_per_buffer`, at most the
requested width, and at least every multiple of `columns_per_buffer` not
exceeding the requested width, i.e. the requested width rounded down to the
nearest multiple (in particular 1000 becomes 992). -/
theorem config_normalization_C8 (s : DecoderState) (c c' : Config)
    (hmm : c.max_range < c.min_range) (hw : c'.image_width = 1000) :
    ((ConfigCb s c).config.min_range = c.max_range
      ∧ (ConfigCb s c).config.max_range = c.max_range)
    ∧ (∀ (t : DecoderState) (d : Config),
        (ConfigCb t d).config.image_width
            = d.image_width / columns_per_buffer * columns_per_buffer
          ∧ columns_per_buffer ∣ (ConfigCb t d).config.image_width
          ∧ (ConfigCb t d).config.image_width ≤ d.image_width
          ∧ ∀ m, columns_per_buffer ∣ m → m ≤ d.image_width →
              m ≤ (ConfigCb t d).config.image_width)
    ∧ (ConfigCb s c').config.image_width = 992 := by
  refine ⟨⟨?_, rfl⟩, fun t d => ⟨rfl, ?_, ?_, fun m hdvd hle => ?_⟩, ?_⟩
  · show min c.min_range c.max_range = c.max_range
    exact min_eq_right (le_of_lt hmm)
  · exact dvd_mul_left columns_per_buffer (d.image_width / columns_per_buffer)
  · exact Nat.div_mul_le_self d.image_width columns_per_buffer
  · show m ≤ d.image_width / columns_per_buffer * columns_per_buffer
    simp only [columns_per_buffer] at hdvd ⊢
    omega
  · show c'.image_width / columns_per_buffer * columns_per_buffer = 992
    rw [hw]
    decide

/-- Witness for C8 at a concrete swapped-range and width-1000 configuration. -/
theorem config_normalization_C8_witness :
    testConfigSwapped.max_range < testConfigSwapped.min_range
      ∧ testConfigW1000.image_width = 1000
      ∧ (ConfigCb testState testConfigSwapped).config.min_range = 2
      ∧ (ConfigCb testState testConfigW1000).config.image_width
          = testConfigW1000.image_width / columns_per_buffer * columns_per_buffer
      ∧ (ConfigCb testState testConfigW1000).config.image_width = 992 :=
  ⟨by decide, rfl,
    (config_normalization_C8 testState testConfigSwapped testConfigW1000
      (by decide) rfl).1.1,
    ((config_normalization_C8 testState testConfigSwapped testConfigW1000
      (by decide) rfl).2.1 testState testConfigW1000).1,
    (config_normalization_C8 testState testConfigSwapped testConfigW1000
      (by decide) rfl).2.2⟩

/-- Claim C6: a configuration update clears the packet buffer within the
update call itself, and every sweep emitted after it consists solely of
packets delivered after the update — no emission mixes pre- and
post-reconfiguration packets, and the discarded partial sweep is never
emitted. -/
theorem config_clears_buffer_C6 (s : DecoderState) (c : Config)
    (ps : List PacketMsg) :
    (ConfigCb s c).buffer = []
    ∧ ∀ b ∈ (processPackets (ConfigCb s c) ps).2, ∀ q ∈ b, q ∈ ps := by
  refine ⟨rfl, ?_⟩
  exact processPackets_emissions_from (fun q => q ∈ ps) (ConfigCb s c) ps
    (fun q hq => absurd hq (List.not_mem_nil q)) (fun q hq => hq)

/-- Witness for C6: after reconfiguring to a one-packet sweep width, the first
emitted sweep consists of the packet delivered after the update. -/
theorem config_clears_buffer_C6_witness :
    (ConfigCb testState testConfig16).buffer = []
      ∧ testPacket ∈ [testPacket] :=
  ⟨(config_clears_buffer_C6 testState testConfig16 [testPacket]).1,
    (config_clears_buffer_C6 testState testConfig16 [testPacket]).2
      [testPacket]
      (by simp [processPackets, LidarPacketCb, ConfigCb, testConfig16, testConfig,
        columns_per_buffer])
      testPacket (List.mem_singleton.mpr rfl)⟩

/-- Claim C10: when the configured width is a positive multiple of
`columns_per_buffer`, the invariant `buffer.length * columns_per_buffer <
image_width` is preserved by every packet callback — the buffer is emptied by
every emission — and every emitted sweep image has exactly `image_width`
columns; a configuration update empties the buffer, re-establishing the
invariant for any positive width; and when the configured width is 0, every
single packet arriving on an empty buffer immediately emits a one-packet
sweep whose image has `columns_per_buffer` columns. -/
theorem width_invariant_C10 (expected : Nat) (info : CalibrationInfo)
    (s : DecoderState) (p : PacketMsg) (c : Config) :
    (s.config.image_width % columns_per_buffer = 0 →
      s.buffer.length * columns_per_buffer < s.config.image_width →
        (LidarPacketCb s p).1.buffer.length * columns_per_buffer
            < (LidarPacketCb s p).1.config.image_width
          ∧ ∀ b, (LidarPacketCb s p).2 = some b →
              (buildImage expected info b).cols = s.config.image_width)
    ∧ ((ConfigCb s c).buffer = []
        ∧ (0 < (ConfigCb s c).config.image_width →
            (ConfigCb s c).buffer.length * columns_per_buffer
              < (ConfigCb s c).config.image_width))
    ∧ (s.config.image_width = 0 → s.buffer = [] →
        LidarPacketCb s p = ({ s with buffer := [] }, some [p])
          ∧ (buildImage expected info [p]).cols = columns_per_buffer) := by
  refine ⟨fun hmult hinv => ?_, ⟨rfl, fun hpos => by simpa using hpos⟩,
    fun hw hb => ⟨?_, ?_⟩⟩
  · rw [LidarPacketCb_eq]
    by_cases hcond : (s.buffer.length + 1) * columns_per_buffer < s.config.image_width
    · rw [if_pos hcond]
      refine ⟨by simpa using hcond, fun b hb => by cases hb⟩
    · rw [if_neg hcond]
      refine ⟨by simpa using Nat.lt_of_le_of_lt (Nat.zero_le _) hinv, fun b hb => ?_⟩
      obtain rfl : s.buffer ++ [p] = b := Option.some.inj hb
      rw [(buildImage_dims expected info _).2]
      simp only [List.length_append, List.length_cons, List.length_nil,
        columns_per_buffer] at hmult hinv hcond ⊢
      omega
  · rw [LidarPacketCb_eq, hb]
    rw [if_neg (by rw [hw]; omega)]
    simp
  · rw [(buildImage_dims expected info _).2]
    simp

/-- Witness for C10 at the default 1024-wide configuration and at a 0-wide
one. -/
theorem width_invariant_C10_witness :
    (testState.config.image_width % columns_per_buffer = 0
      ∧ testState.buffer.length * columns_per_buffer < testState.config.image_width
      ∧ (LidarPacketCb testState testPacket).1.buffer.length * columns_per_buffer
          < (LidarPacketCb testState testPacket).1.config.image_width)
    ∧ (testState0.config.image_width = 0 ∧ testState0.buffer = []
      ∧ (buildImage 0 testInfo [testPacket]).cols = columns_per_buffer) :=
  ⟨⟨by decide, by decide,
    ((width_invariant_C10 0 testInfo testState testPacket testConfig).1
      (by decide) (by decide)).1⟩,
   ⟨rfl, rfl,
    ((width_invariant_C10 0 testInfo testState0 testPacket testConfig).2.2
      rfl rfl).2⟩⟩

/-- Claim C5: a packet whose byte buffer is shorter than the expected packet
size fails to decode — `nth_col` returns the `MalformedPacket` condition for
every column — and only that packet is skipped: all of its columns stay at
the sentinel in the built image (the builder is a total function, so no crash
or out-of-bounds access is modelled), while the accumulator's emission
decision is unchanged, so the in-progress sweep is not aborted. -/
theorem malformed_packet_skipped_C5 (expected : Nat) (info : CalibrationInfo)
    (buf : List PacketMsg) (p : PacketMsg) (ibuf : Nat) (s : DecoderState)
    (hshort : p.len < expected) (hget : buf.get? ibuf = some p) :
    (∀ icol, nth_col expected icol p = .error .MalformedPacket)
    ∧ (∀ r icol, icol < columns_per_buffer →
        (buildImage expected info buf).data r (ibuf * columns_per_buffer + icol) = none)
    ∧ ((LidarPacketCb s p).2.isSome
        ↔ ¬ ((s.buffer.length + 1) * columns_per_buffer < s.config.image_width)) := by
  refine ⟨fun icol => ?_, fun r icol hicol => ?_, ?_⟩
  · unfold nth_col
    rw [if_pos hshort]
  · rw [buildImage_data]
    unfold builtCell
    have hdiv : (ibuf * columns_per_buffer + icol) / columns_per_buffer = ibuf := by
      simp only [columns_per_buffer] at hicol ⊢
      omega
    simp only [hdiv, hget]
    rw [if_neg (by rintro ⟨h1, -⟩; omega)]
  · rw [LidarPacketCb_eq]
    by_cases hcond : (s.buffer.length + 1) * columns_per_buffer < s.config.image_width
    · rw [if_pos hcond]
      simpa using hcond
    · rw [if_neg hcond]
      simpa using hcond

/-- Witness for C5 on a zero-length packet with expected size 1. -/
theorem malformed_packet_skipped_C5_witness :
    testPacket.len < 1 ∧ [testPacket].get? 0 = some testPacket
      ∧ nth_col 1 0 testPacket = .error .MalformedPacket
      ∧ (buildImage 1 testInfo [testPacket]).data 0 0 = none :=
  ⟨by decide, rfl,
    (malformed_packet_skipped_C5 1 testInfo [testPacket] testPacket 0 testState
      (by decide) rfl).1 0,
    (malformed_packet_skipped_C5 1 testInfo [testPacket] testPacket 0 testState
      (by decide) rfl).2.1 0 0 (by decide)⟩

/-- Claim C2: for every valid column (validity word equal to the all-ones
sentinel `0xffffffff`) at position `icol` of the packet at buffer position
`ibuf`, the image builder writes, for every beam row `ipx`, the triple
`(range * range_factor, reflectivity, h_angle + beam_azimuth_angles[ipx])`
into the cell at row `ipx` and global column
`ibuf * columns_per_buffer + icol`. -/
theorem image_builder_cell_C2 (expected : Nat) (info : CalibrationInfo)
    (buf : List PacketMsg) (ibuf icol ipx : Nat) (p : PacketMsg)
    (hget : buf.get? ibuf = some p) (hicol : icol < columns_per_buffer)
    (hipx : ipx < pixels_per_column) (hlen : expected ≤ p.len)
    (hvalid : (p.col icol).valid = 0xffffffff) :
    (buildImage expected info buf).data ipx (ibuf * columns_per_buffer + icol)
      = some ((((p.col icol).px ipx).range : ℝ) * range_factor,
              ((((p.col icol).px ipx).reflectivity : Nat) : ℝ),
              (p.col icol).h_angle + info.beam_azimuth_angles ipx) := by
  rw [buildImage_data]
  unfold builtCell
  have hdiv : (ibuf * columns_per_buffer + icol) / columns_per_buffer = ibuf := by
    simp only [columns_per_buffer] at hicol ⊢
    omega
  have hmod : (ibuf * columns_per_buffer + icol) % columns_per_buffer = icol := by
    simp only [columns_per_buffer] at hicol ⊢
    omega
  simp only [hdiv, hmod, hget]
  rw [if_pos ⟨hlen, hvalid, hipx⟩]
  rfl

/-- Witness for C2 on a concrete valid packet. -/
theorem image_builder_cell_C2_witness :
    [validPacket].get? 0 = some validPacket
      ∧ (0 : Nat) < columns_per_buffer ∧ (0 : Nat) < pixels_per_column
      ∧ (1 : Nat) ≤ validPacket.len
      ∧ (validPacket.col 0).valid = 0xffffffff
      ∧ (buildImage 1 testInfo [validPacket]).data 0 (0 * columns_per_buffer + 0)
          = some ((((validPacket.col 0).px 0).range : ℝ) * range_factor,
                  ((((validPacket.col 0).px 0).reflectivity : Nat) : ℝ),
                  (validPacket.col 0).h_angle + testInfo.beam_azimuth_angles 0) :=
  ⟨rfl, by decide, by decide, by decide, by decide,
    image_builder_cell_C2 1 testInfo [validPacket] 0 0 0 validPacket rfl
      (by decide) (by decide) (by decide) (by decide)⟩

/-- Claim C7: a column whose validity word differs from the all-ones sentinel
leaves its entire image column at the sentinel in every row — no error is
raised, the builder simply continues — and in unorganized mode that column
contributes zero points to the cloud. -/
theorem invalid_column_empty_C7 (expected : Nat) (info : CalibrationInfo)
    (buf : List PacketMsg) (ibuf icol : Nat) (p : PacketMsg)
    (hget : buf.get? ibuf = some p) (hicol : icol < columns_per_buffer)
    (hinvalid : (p.col icol).valid ≠ 0xffffffff) :
    (∀ r, (buildImage expected info buf).data r (ibuf * columns_per_buffer + icol) = none)
    ∧ ∀ r phi,
        projectCell phi
          ((buildImage expected info buf).data r (ibuf * columns_per_buffer + icol))
          false = [] := by
  have hcell : ∀ r,
      (buildImage expected info buf).data r (ibuf * columns_per_buffer + icol) = none := by
    intro r
    rw [buildImage_data]
    unfold builtCell
    have hdiv : (ibuf * columns_per_buffer + icol) / columns_per_buffer = ibuf := by
      simp only [columns_per_buffer] at hicol ⊢
      omega
    have hmod : (ibuf * columns_per_buffer + icol) % columns_per_buffer = icol := by
      simp only [columns_per_buffer] at hicol ⊢
      omega
    simp only [hdiv, hmod, hget]
    rw [if_neg (by rintro ⟨-, h2, -⟩; exact hinvalid h2)]
  exact ⟨hcell, fun r phi => by rw [hcell r]; rfl⟩

/-- Witness for C7 on a packet whose column 0 carries validity word 0. -/
theorem invalid_column_empty_C7_witness :
    [testPacket].get? 0 = some testPacket
      ∧ (0 : Nat) < columns_per_buffer
      ∧ (testPacket.col 0).valid ≠ 0xffffffff
      ∧ (buildImage 0 testInfo [testPacket]).data 0 0 = none
      ∧ projectCell 0 ((buildImage 0 testInfo [testPacket]).data 0 0) false = [] :=
  ⟨rfl, by decide, by decide,
    (invalid_column_empty_C7 0 testInfo [testPacket] 0 0 testPacket rfl
      (by decide) (by decide)).1 0,
    (invalid_column_empty_C7 0 testInfo [testPacket] 0 0 testPacket rfl
      (by decide) (by decide)).2 0 0⟩

/-- Claim C3: every cell whose range channel is not the sentinel yields the
point `x = d cos(phi) cos(theta)`, `y = -(d cos(phi) sin(theta))`,
`z = d sin(phi)` with the cell's reflectivity as intensity, where `phi` is the
row's altitude angle, `theta` the cell's azimuth channel and `d` its range
channel; in particular a cell with range 10, altitude 0 and azimuth 0
projects to `(10, 0, 0)`, and azimuth `π/2` to `(0, -10, 0)`. -/
theorem projection_formula_C3 (img : RangeImage) (alt : Nat → ℝ)
    (organized : Bool) (r c : Nat) (d refl theta : ℝ)
    (hr : r < img.rows) (hc : c < img.cols)
    (hcell : img.data r c = some (d, refl, theta)) :
    CloudPoint.pt (d * Real.cos (alt r) * Real.cos theta)
        (-(d * Real.cos (alt r) * Real.sin theta))
        (d * Real.sin (alt r)) refl ∈ (ToCloud img alt organized).points
    ∧ projectCell 0 (some ((10 : ℝ), refl, 0)) organized
        = [CloudPoint.pt 10 0 0 refl]
    ∧ projectCell 0 (some ((10 : ℝ), refl, Real.pi / 2)) organized
        = [CloudPoint.pt 0 (-10) 0 refl] := by
  refine ⟨?_, ?_, ?_⟩
  · rw [ToCloud_points]
    exact mem_cloudScan img alt organized r c d refl theta hr hc hcell
  · rw [projectCell_some]
    simp
  · rw [projectCell_some]
    simp [Real.cos_pi_div_two, Real.sin_pi_div_two]

/-- Witness for C3 on the one-cell test image. -/
theorem projection_formula_C3_witness :
    0 < testImage.rows ∧ 0 < testImage.cols
      ∧ testImage.data 0 0 = some ((10 : ℝ), (7 : ℝ), (0 : ℝ))
      ∧ CloudPoint.pt ((10 : ℝ) * Real.cos (testInfo.beam_altitude_angles 0) * Real.cos 0)
          (-((10 : ℝ) * Real.cos (testInfo.beam_altitude_angles 0) * Real.sin 0))
          ((10 : ℝ) * Real.sin (testInfo.beam_altitude_angles 0)) 7
          ∈ (ToCloud testImage testInfo.beam_altitude_angles false).points :=
  ⟨by decide, by decide, rfl,
    (projection_formula_C3 testImage testInfo.beam_altitude_angles false 0 0
      10 7 0 (by decide) (by decide) rfl).1⟩

/-- Claim C4: for an image with `R` rows, `C` columns and `K` non-sentinel
cells, organized output has exactly `R*C` points (all-NaN placeholders
standing in for empty cells) and records `width = C`, `height = R`;
unorganized output has exactly `K` points — the organized scan with the
placeholders filtered out, i.e. image-scan order with empties omitted — and
records `height = 1`, `width = K`. -/
theorem cloud_shape_C4 (img : RangeImage) (alt : Nat → ℝ) :
    ((ToCloud img alt true).points.length = img.rows * img.cols
      ∧ (ToCloud img alt true).width = img.cols
      ∧ (ToCloud img alt true).height = img.rows)
    ∧ ((ToCloud img alt false).points.length = validCount img
      ∧ (ToCloud img alt false).height = 1
      ∧ (ToCloud img alt false).width = validCount img)
    ∧ (ToCloud img alt false).points
        = ((ToCloud img alt true).points.filter fun q => !q.isNan) := by
  refine ⟨⟨?_, rfl, rfl⟩, ⟨?_, rfl, ?_⟩, ?_⟩
  · rw [ToCloud_points]
    exact cloudScan_organized_length img alt
  · rw [ToCloud_points]
    exact cloudScan_unorganized_length img alt
  · show (cloudScan img alt false).length = validCount img
    exact cloudScan_unorganized_length img alt
  · rw [ToCloud_points, ToCloud_points]
    exact cloudScan_unorganized_eq_filter img alt

/-- Claim C9: the projection step applies no `min_range`/`max_range`
filtering: two configurations that differ only in those bounds produce the
identical published cloud for every image, and every non-sentinel cell yields
its point with no hypothesis on how its range compares to the bounds. -/
theorem no_range_filter_C9 (c1 c2 : Config) (info : CalibrationInfo)
    (img : RangeImage)
    (_hw : c1.image_width = c2.image_width) (ho : c1.organized = c2.organized)
    (_hf : c1.full_sweep = c2.full_sweep) :
    sweepCloud c1 info img = sweepCloud c2 info img
    ∧ ∀ r c (d refl theta : ℝ), r < img.rows → c < img.cols →
        img.data r c = some (d, refl, theta) →
        CloudPoint.pt (d * Real.cos (info.beam_altitude_angles r) * Real.cos theta)
            (-(d * Real.cos (info.beam_altitude_angles r) * Real.sin theta))
            (d * Real.sin (info.beam_altitude_angles r)) refl
          ∈ (sweepCloud c1 info img).points := by
  constructor
  · unfold sweepCloud
    rw [ho]
  · intro r c d refl theta hr hc hcell
    unfold sweepCloud
    rw [ToCloud_points]
    exact mem_cloudScan img info.beam_altitude_angles c1.organized r c d refl theta
      hr hc hcell

/-- Witness for C9: the default configuration against one with range bounds
100–200 on the one-cell test image (whose range 10 is below that band). -/
theorem no_range_filter_C9_witness :
    testConfig.image_width = testConfigFar.image_width
      ∧ testConfig.organized = testConfigFar.organized
      ∧ testConfig.full_sweep = testConfigFar.full_sweep
      ∧ sweepCloud testConfig testInfo testImage
          = sweepCloud testConfigFar testInfo testImage
      ∧ CloudPoint.pt ((10 : ℝ) * Real.cos (testInfo.beam_altitude_angles 0) * Real.cos 0)
          (-((10 : ℝ) * Real.cos (testInfo.beam_altitude_angles 0) * Real.sin 0))
          ((10 : ℝ) * Real.sin (testInfo.beam_altitude_angles 0)) 7
          ∈ (sweepCloud testConfig testInfo testImage).points :=
  ⟨rfl, rfl, rfl,
    (no_range_filter_C9 testConfig testConfigFar testInfo testImage rfl rfl rfl).1,
    (no_range_filter_C9 testConfig testConfigFar testInfo testImage rfl rfl rfl).2
      0 0 10 7 0 (by decide) (by decide) rfl⟩

end OusterOS1
